import Mathlib

/-!
Verification of the FinSage incremental-load / merge-upsert engine.

Shallow embedding of the core of the repository:

* `SnowflakeClient.merge_data` (src/utils/snowflake_client.py): the temp
  staging + MERGE upsert.  A table is a list of rows; a row assigns a value
  to every column name (staging is created `LIKE` the target, so one row
  shape serves both).  `MERGE INTO target USING staging ON <match keys>`
  updates every matched target row from its matching staging row and inserts
  every unmatched staging row.
* `SnowflakeClient.get_last_loaded_date`: `SELECT MAX(col) ... WHERE TICKER =`
  watermark resolution, with SQL `MAX` ignoring NULLs.
* `BaseDataLoader.load` (src/data_loaders/base_loader.py): the
  fetch/transform/validate/score/upsert driver, with every exception caught
  at the loader boundary and converted into a `False` return.
* The per-source validators and quality scorers of `StockPriceLoader`,
  `SECFilingLoader` and `NewsLoader`, with pandas null-comparison semantics
  made explicit (a comparison involving NaN is false, `isnull` detects
  missing values).
* `run_pipeline` (src/orchestration/data_pipeline.py): the per-ticker
  success / partial-success / failed bucketing.
-/

namespace FinSage

/-- Column names are plain strings, as in the pandas DataFrames of the source. -/
abbrev Col := String

/-- A table row assigns a value to every column name.  The staging table is
created with the target's shape (`CREATE ... TEMPORARY TABLE ... LIKE`), so a
single row type serves target and staging. -/
abbrev Row (V : Type) := Col → V

/-- Merge-key tuple of a row for the given `match_keys` list. -/
def keyOf {V : Type} (ks : List Col) (r : Row V) : List V :=
  ks.map r

/-- Effect of `UPDATE SET c = source.c` over the listed update columns:
columns in `upd` take the staging row's value, every other column keeps the
target row's value. -/
def updateRow {V : Type} (upd : List Col) (t s : Row V) : Row V :=
  fun c => if c ∈ upd then s c else t c

/-- ON-clause of the MERGE: `target.k = source.k` for every match key. -/
def matchesKey {V : Type} [DecidableEq V] (ks : List Col) (t s : Row V) : Bool :=
  decide (keyOf ks t = keyOf ks s)

namespace SnowflakeClient

/-- Action of the MERGE on one existing target row: if some staging row
matches its merge-key tuple the target row is updated from that staging row
(`WHEN MATCHED THEN UPDATE SET`), otherwise it is left untouched.  SQL leaves
the choice among several matching staging rows unspecified; the model takes
the first one, which is the unique one whenever the batch has pairwise
distinct merge keys. -/
def mergeRow {V : Type} [DecidableEq V] (ks upd : List Col)
    (batch : List (Row V)) (t : Row V) : Row V :=
  match batch.find? (fun s => matchesKey ks t s) with
  | some s => updateRow upd t s
  | none => t

/-- `SnowflakeClient.merge_data`: write the batch to the staging table and
reconcile it into the target with one MERGE statement — matched target rows
are updated on the `update_columns`, staging rows with no matching target row
are inserted as full rows (`WHEN NOT MATCHED THEN INSERT`). -/
def merge_data {V : Type} [DecidableEq V] (ks upd : List Col)
    (target batch : List (Row V)) : List (Row V) :=
  target.map (mergeRow ks upd batch) ++
    batch.filter (fun s => !(target.any (fun t => matchesKey ks t s)))

/-- Row of a persisted table as seen by the watermark query: the TICKER
column and the ordering column (`date_column`), the latter nullable as any
unconstrained SQL column is. -/
structure PersistedRow (V : Type) where
  ticker : String
  orderingValue : Option V
deriving DecidableEq

/-- `SnowflakeClient.get_last_loaded_date`: `SELECT MAX(date_column) FROM
table WHERE TICKER = '<ticker>'`, then return the value unless it is NULL
(the Python code checks `result[0]['LAST_DATE']` for truthiness; the date
values produced by the loaders are timestamps or nonempty date strings, which
are truthy exactly when non-null).  SQL `MAX` ignores NULL values and yields
NULL when no non-null value exists among the matching rows. -/
def get_last_loaded_date {V : Type} [LinearOrder V]
    (table : List (PersistedRow V)) (ticker : String) : Option V :=
  ((table.filter (fun r => decide (r.ticker = ticker))).filterMap
    (fun r => r.orderingValue)).max?

end SnowflakeClient

/-- Pandas `<` on nullable values: any comparison involving a missing value
(NaN) is false. -/
def optLt (a b : Option ℚ) : Bool :=
  match a, b with
  | some x, some y => decide (x < y)
  | _, _ => false

/-- Pandas `>` on nullable values. -/
def optGt (a b : Option ℚ) : Bool :=
  optLt b a

/-- One row of the stock-price DataFrame (src/data_loaders/stock_loader.py).
OHLC values are nullable floats, modelled as optional rationals; `open` is a
Lean keyword, so that field is `open_`.  `ticker` and `ingested_at` are
attached by `transform_data`. -/
structure PriceRow where
  date : String
  open_ : Option ℚ
  high : Option ℚ
  low : Option ℚ
  close : Option ℚ
  ticker : String
  ingested_at : String
deriving DecidableEq, Repr

namespace StockPriceLoader

/-- `StockPriceLoader.validate_data`: raises (modelled as `Except.error`) on
the first violated check — negative prices, high below low, open outside
[low, high], close outside [low, high] — and returns `True` otherwise.  Each
check is a pandas `.any()` over the rows, so rows with missing values never
trigger a comparison. -/
def validate_data (df : List PriceRow) : Except String Bool :=
  if df.any (fun r => optLt r.open_ (some 0)) || df.any (fun r => optLt r.high (some 0)) ||
      df.any (fun r => optLt r.low (some 0)) || df.any (fun r => optLt r.close (some 0)) then
    Except.error ("Price columns cannot have negative values")
  else if df.any (fun r => optLt r.high r.low) then
    Except.error ("High price cannot be less than low price")
  else if df.any (fun r => optLt r.open_ r.low) || df.any (fun r => optGt r.open_ r.high) then
    Except.error ("Open price must be between low and high")
  else if df.any (fun r => optLt r.close r.low) || df.any (fun r => optGt r.close r.high) then
    Except.error ("Close price must be between low and high")
  else
    Except.ok true

/-- `StockPriceLoader.calculate_quality_score`: start at 100.0 and subtract a
fixed penalty per defect class — 20 for any high below low, 10 for any open
out of range, 10 for any close out of range, 30 for any missing OHLC cell
(`df[['open','high','low','close']].isnull().any().any()`). -/
def calculate_quality_score (df : List PriceRow) : ℚ :=
  let score : ℚ := 100
  let score := if df.any (fun r => optLt r.high r.low) then score - 20 else score
  let score :=
    if df.any (fun r => optLt r.open_ r.low) || df.any (fun r => optGt r.open_ r.high) then
      score - 10
    else score
  let score :=
    if df.any (fun r => optLt r.close r.low) || df.any (fun r => optGt r.close r.high) then
      score - 10
    else score
  let score :=
    if df.any (fun r =>
        r.open_.isNone || r.high.isNone || r.low.isNone || r.close.isNone) then
      score - 30
    else score
  score

/-- `StockPriceLoader.get_merge_keys`. -/
def get_merge_keys : List Col := ["TICKER", "DATE"]

/-- Merge-key tuple of a stock-price row, following `get_merge_keys`. -/
def merge_key (r : PriceRow) : String × String :=
  (r.ticker, r.date)

/-- `transform_data` (base method plus the stock override): set the ticker
and the formatted ingestion timestamp on every row; the price and date
fields are untouched. -/
def transform_data (ticker now : String) (df : List PriceRow) : List PriceRow :=
  df.map (fun r => { r with ticker := ticker, ingested_at := now })

end StockPriceLoader

/-- One row of the SEC filing DataFrame: only the `filing_text` column is
read by the quality scorer. -/
structure FilingRow where
  filing_text : Option String
deriving DecidableEq, Repr

namespace SECFilingLoader

/-- `SECFilingLoader.calculate_quality_score`: returns 0.0 for an empty
frame; otherwise starts at 100, deducts 40/20 when the average text length is
below 10000/50000 (pandas `.str.len().mean()` averages the non-null texts and
is NaN when every text is null, and a NaN comparison is false), deducts half
of the null percentage, and clamps at zero with `max(score, 0.0)`. -/
def calculate_quality_score (df : List FilingRow) : ℚ :=
  if df.isEmpty then 0
  else
    let lens := df.filterMap (fun r => r.filing_text.map (fun t => (t.length : ℚ)))
    let score : ℚ := 100
    let score :=
      if lens.isEmpty then score
      else
        let avg := lens.sum / (lens.length : ℚ)
        if avg < 10000 then score - 40 else if avg < 50000 then score - 20 else score
    let nullPct : ℚ :=
      ((df.filter (fun r => r.filing_text.isNone)).length : ℚ) / (df.length : ℚ) * 100
    let score := score - nullPct * (1 / 2)
    max score 0

end SECFilingLoader

namespace NewsLoader

/-- Fields parsed from one NewsAPI article (every payload field may be
absent). -/
structure Article where
  title : Option String
  description : Option String
  content : Option String
  author : Option String
  source_name : Option String
  url : Option String
  published_at : Option String
deriving DecidableEq, Repr

/-- One record built by `NewsLoader.fetch_data`: a freshly generated UUID
plus the parsed article fields. -/
structure NewsRecord where
  article_id : String
  title : Option String
  description : Option String
  content : Option String
  author : Option String
  source_name : Option String
  url : Option String
  published_at : Option String
deriving DecidableEq, Repr

/-- Core of `NewsLoader.fetch_data`: each parsed article is assigned the next
freshly generated UUID (`str(uuid.uuid4())`), modelled as an external supply
of identifiers; the assigned `article_id` does not depend on any article
field. -/
def fetch_records (uuids : List String) (articles : List Article) : List NewsRecord :=
  List.zipWith
    (fun u a => ⟨u, a.title, a.description, a.content, a.author, a.source_name,
      a.url, a.published_at⟩)
    uuids articles

/-- `NewsLoader.get_merge_keys`: the UUID column is the sole merge key. -/
def get_merge_keys : List Col := ["ARTICLE_ID"]

/-- View of a news record as a table row for the merge engine (`merge_data`
uppercases the DataFrame columns before staging). -/
def NewsRecord.toRow (r : NewsRecord) : Row (Option String) :=
  fun c =>
    if c = "ARTICLE_ID" then some r.article_id
    else if c = "TITLE" then r.title
    else if c = "DESCRIPTION" then r.description
    else if c = "CONTENT" then r.content
    else if c = "AUTHOR" then r.author
    else if c = "SOURCE_NAME" then r.source_name
    else if c = "URL" then r.url
    else r.published_at

end NewsLoader

namespace BaseDataLoader

/-- `BaseDataLoader.load`, instrumented: the Boolean is the method's return
value; the second component is the scored DataFrame handed to
`_load_to_snowflake` (`none` when the upsert step is never invoked).  The
fetch result is an `Except` because an exception raised by the fetcher is
caught by the surrounding `try` and turned into a `False` return;
`validate_data` returns `Except.error` where the Python validator raises, and
a `False` validation result triggers the `raise ValueError` branch, which the
same `try` converts into a `False` return as well. -/
def load {R : Type} (transform : List R → List R)
    (validate : List R → Except String Bool)
    (score : List R → ℚ)
    (fetched : Except String (List R)) : Bool × Option (List R × ℚ) :=
  match fetched with
  | Except.error _ => (false, none)
  | Except.ok df =>
    if df.isEmpty then (false, none)
    else
      let df2 := transform df
      match validate df2 with
      | Except.error _ => (false, none)
      | Except.ok true => (true, some (df2, score df2))
      | Except.ok false => (false, none)

/-- Effect of a load outcome on the target table: the upsert runs exactly
when a scored DataFrame was handed to `_load_to_snowflake`. -/
def load_effect {R T : Type} (upsert : T → List R → ℚ → T)
    (res : Bool × Option (List R × ℚ)) (table : T) : T :=
  match res.2 with
  | none => table
  | some (df, s) => upsert table df s

end BaseDataLoader

/-- Outcome buckets of `run_pipeline`.  The source dictionary keys are
'success', 'partial' and 'failed'; the middle bucket is called `mixed`
here. -/
structure PipelineResults where
  success : List String
  mixed : List String
  failed : List String
deriving DecidableEq, Repr

/-- Bucketing of one ticker from its per-loader results:
`all(loader_results.values())` → success, `any(...)` → partial success,
otherwise failed. -/
def categorize (res : PipelineResults) (ticker : String)
    (loaderResults : List Bool) : PipelineResults :=
  if loaderResults.all id then { res with success := res.success ++ [ticker] }
  else if loaderResults.any id then { res with mixed := res.mixed ++ [ticker] }
  else { res with failed := res.failed ++ [ticker] }

/-- `run_pipeline`: process every ticker in order, running each enabled
loader's `load`; `load` is total (it catches its own exceptions and returns a
Boolean), and one ticker's outcome never interrupts the loop over the
remaining tickers. -/
def run_pipeline (tickers : List String) (loads : List (String → Bool)) :
    PipelineResults :=
  tickers.foldl (fun res t => categorize res t (loads.map (fun f => f t))) ⟨[], [], []⟩

/-- Sample integer-valued row used to exercise the merge engine on concrete
inputs. -/
def sampleRow (tk dt cl : Int) : Row Int :=
  fun c =>
    if c = "TICKER" then tk else if c = "DATE" then dt
    else if c = "CLOSE" then cl else 0

namespace SnowflakeClient

theorem keyOf_updateRow {V : Type} (ks upd : List Col) (t s : Row V)
    (h : keyOf ks t = keyOf ks s) :
    keyOf ks (updateRow upd t s) = keyOf ks t := by
  have hpt : ∀ c ∈ ks, t c = s c := by
    intro c hc
    exact List.map_eq_map_iff.mp h c hc
  unfold keyOf updateRow
  apply List.map_eq_map_iff.mpr
  intro c hc
  by_cases hcu : c ∈ upd
  · simp only [hcu, if_pos]
    exact (hpt c hc).symm
  · simp only [hcu, if_neg, not_false_iff]

theorem updateRow_idem {V : Type} (upd : List Col) (t s : Row V) :
    updateRow upd (updateRow upd t s) s = updateRow upd t s := by
  funext c
  unfold updateRow
  by_cases h : c ∈ upd <;> simp [h]

theorem keyOf_mergeRow {V : Type} [DecidableEq V] (ks upd : List Col)
    (batch : List (Row V)) (t : Row V) :
    keyOf ks (mergeRow ks upd batch t) = keyOf ks t := by
  unfold mergeRow
  cases hf : batch.find? (fun s => matchesKey ks t s) with
  | none => rfl
  | some s =>
    have hp := List.find?_some hf
    simp only [matchesKey] at hp
    exact keyOf_updateRow ks upd t s (of_decide_eq_true hp)

theorem mergeRow_idem {V : Type} [DecidableEq V] (ks upd : List Col)
    (batch : List (Row V)) (t : Row V) :
    mergeRow ks upd batch (mergeRow ks upd batch t) = mergeRow ks upd batch t := by
  cases hf : batch.find? (fun s => matchesKey ks t s) with
  | none =>
    have h1 : mergeRow ks upd batch t = t := by
      unfold mergeRow; rw [hf]
    rw [h1]
    exact h1
  | some s =>
    have h1 : mergeRow ks upd batch t = updateRow upd t s := by
      unfold mergeRow; rw [hf]
    have hp := List.find?_some hf
    simp only [matchesKey] at hp
    have hkey : keyOf ks t = keyOf ks s := of_decide_eq_true hp
    have hpred : (fun x => matchesKey ks (updateRow upd t s) x) =
        (fun x => matchesKey ks t x) := by
      funext x
      unfold matchesKey
      rw [keyOf_updateRow ks upd t s hkey]
    rw [h1]
    show mergeRow ks upd batch (updateRow upd t s) = updateRow upd t s
    unfold mergeRow
    rw [hpred, hf]
    exact updateRow_idem upd t s

theorem mergeRow_self_of_nodup {V : Type} [DecidableEq V] (ks upd : List Col)
    (batch : List (Row V)) (s : Row V)
    (hd : (batch.map (keyOf ks)).Nodup) (hs : s ∈ batch) :
    mergeRow ks upd batch s = s := by
  have hsome : (batch.find? (fun x => matchesKey ks s x)).isSome := by
    rw [List.find?_isSome]
    refine ⟨s, hs, ?_⟩
    unfold matchesKey
    simp
  obtain ⟨s₁, hf⟩ := Option.isSome_iff_exists.mp hsome
  have hmem : s₁ ∈ batch := List.mem_of_find?_eq_some hf
  have hp := List.find?_some hf
  simp only [matchesKey] at hp
  have hkey : keyOf ks s = keyOf ks s₁ := of_decide_eq_true hp
  have heq : s₁ = s := List.inj_on_of_nodup_map hd hmem hs hkey.symm
  unfold mergeRow
  rw [hf, heq]
  funext c
  unfold updateRow
  by_cases h : c ∈ upd <;> simp [h]

theorem merge_data_map_fixed {V : Type} [DecidableEq V] (ks upd : List Col)
    (target batch : List (Row V)) (hd : (batch.map (keyOf ks)).Nodup) :
    (merge_data ks upd target batch).map (mergeRow ks upd batch) =
      merge_data ks upd target batch := by
  unfold merge_data
  rw [List.map_append, List.map_map]
  congr 1
  · apply List.map_congr_left
    intro t _
    exact mergeRow_idem ks upd batch t
  · have hfix : ∀ s ∈ batch.filter
        (fun s => !(target.any (fun t => matchesKey ks t s))),
        mergeRow ks upd batch s = s := by
      intro s hsf
      exact mergeRow_self_of_nodup ks upd batch s hd (List.mem_of_mem_filter hsf)
    calc (batch.filter (fun s => !(target.any (fun t => matchesKey ks t s)))).map
            (mergeRow ks upd batch)
        = (batch.filter (fun s => !(target.any (fun t => matchesKey ks t s)))).map id := by
          apply List.map_congr_left
          intro s hsf
          exact hfix s hsf
      _ = batch.filter (fun s => !(target.any (fun t => matchesKey ks t s))) :=
          List.map_id _

theorem merge_data_filter_nil {V : Type} [DecidableEq V] (ks upd : List Col)
    (target batch : List (Row V)) :
    batch.filter (fun s =>
      !((merge_data ks upd target batch).any (fun t => matchesKey ks t s))) = [] := by
  rw [List.filter_eq_nil_iff]
  intro s hs
  have hany : (merge_data ks upd target batch).any (fun t => matchesKey ks t s)
      = true := by
    rw [List.any_eq_true]
    by_cases h : target.any (fun t => matchesKey ks t s) = true
    · obtain ⟨t, ht, hts⟩ := List.any_eq_true.mp h
      refine ⟨mergeRow ks upd batch t, ?_, ?_⟩
      · unfold merge_data
        exact List.mem_append_left _ (List.mem_map_of_mem _ ht)
      · unfold matchesKey at hts ⊢
        rw [keyOf_mergeRow]
        exact hts
    · refine ⟨s, ?_, ?_⟩
      · unfold merge_data
        apply List.mem_append_right
        rw [List.mem_filter]
        exact ⟨hs, by rw [Bool.not_eq_true', Bool.eq_false_iff]; exact h⟩
      · unfold matchesKey
        simp
  simp [hany]

/-- C1: Upsert idempotence.  For every batch with pairwise-distinct merge-key
tuples, running `merge_data` a second time with the identical batch leaves
the target table identical to running it once: the second run creates no
duplicate rows and does not change the target row count. -/
theorem merge_data_idempotent {V : Type} [DecidableEq V] (ks upd : List Col)
    (target batch : List (Row V)) (hd : (batch.map (keyOf ks)).Nodup) :
    merge_data ks upd (merge_data ks upd target batch) batch =
      merge_data ks upd target batch ∧
    (merge_data ks upd (merge_data ks upd target batch) batch).length =
      (merge_data ks upd target batch).length := by
  have hexp : merge_data ks upd (merge_data ks upd target batch) batch =
      (merge_data ks upd target batch).map (mergeRow ks upd batch) ++
        batch.filter (fun s =>
          !((merge_data ks upd target batch).any (fun t => matchesKey ks t s))) := rfl
  have hmain : merge_data ks upd (merge_data ks upd target batch) batch =
      merge_data ks upd target batch := by
    rw [hexp, merge_data_map_fixed ks upd target batch hd,
        merge_data_filter_nil ks upd target batch, List.append_nil]
  exact ⟨hmain, by rw [hmain]⟩

/-- Witness for `merge_data_idempotent`: a one-row target and a two-row batch
on the stock merge keys, with distinct key tuples. -/
theorem merge_data_idempotent_witness :
    merge_data ["TICKER", "DATE"] ["CLOSE"]
        (merge_data ["TICKER", "DATE"] ["CLOSE"]
          [sampleRow 1 10 100] [sampleRow 1 10 101, sampleRow 1 11 102])
        [sampleRow 1 10 101, sampleRow 1 11 102] =
      merge_data ["TICKER", "DATE"] ["CLOSE"]
        [sampleRow 1 10 100] [sampleRow 1 10 101, sampleRow 1 11 102] ∧
    (merge_data ["TICKER", "DATE"] ["CLOSE"]
        (merge_data ["TICKER", "DATE"] ["CLOSE"]
          [sampleRow 1 10 100] [sampleRow 1 10 101, sampleRow 1 11 102])
        [sampleRow 1 10 101, sampleRow 1 11 102]).length =
      (merge_data ["TICKER", "DATE"] ["CLOSE"]
        [sampleRow 1 10 100] [sampleRow 1 10 101, sampleRow 1 11 102]).length :=
  merge_data_idempotent ["TICKER", "DATE"] ["CLOSE"]
    [sampleRow 1 10 100] [sampleRow 1 10 101, sampleRow 1 11 102] (by decide)

theorem merge_data_getElem_left {V : Type} [DecidableEq V] (ks upd : List Col)
    (target batch : List (Row V)) (i : Nat) (t : Row V)
    (ht : target[i]? = some t) :
    (merge_data ks upd target batch)[i]? = some (mergeRow ks upd batch t) := by
  obtain ⟨hi, _⟩ := List.getElem?_eq_some_iff.mp ht
  unfold merge_data
  rw [List.getElem?_append_left (by simpa using hi), List.getElem?_map, ht]
  rfl

theorem find?_eq_some_of_key_match {V : Type} [DecidableEq V] (ks : List Col)
    (batch : List (Row V)) (t s : Row V)
    (hd : (batch.map (keyOf ks)).Nodup) (hs : s ∈ batch)
    (hkey : keyOf ks t = keyOf ks s) :
    batch.find? (fun x => matchesKey ks t x) = some s := by
  have hsome : (batch.find? (fun x => matchesKey ks t x)).isSome := by
    rw [List.find?_isSome]
    exact ⟨s, hs, by unfold matchesKey; exact decide_eq_true hkey⟩
  obtain ⟨s₁, hf⟩ := Option.isSome_iff_exists.mp hsome
  have hmem : s₁ ∈ batch := List.mem_of_find?_eq_some hf
  have hp := List.find?_some hf
  simp only [matchesKey] at hp
  have hk1 : keyOf ks t = keyOf ks s₁ := of_decide_eq_true hp
  have hks : keyOf ks s₁ = keyOf ks s := by
    rw [← hk1]; exact hkey
  have heq : s₁ = s := List.inj_on_of_nodup_map hd hmem hs hks
  rw [hf, heq]

/-- C2: Merge correctness.  After the upsert, (a) every target row whose
merge-key tuple matches a batch row is replaced, in place, by a row holding
the batch row's values on exactly the `update_columns`, the old values on
every other column, and in particular unchanged merge-key columns; (b) every
target row matching no batch row is left completely unchanged in its
position; (c) every batch row matching no target row is inserted as a full
row. -/
theorem merge_data_correct {V : Type} [DecidableEq V] (ks upd : List Col)
    (target batch : List (Row V)) (hd : (batch.map (keyOf ks)).Nodup) :
    (∀ (i : Nat) (t : Row V), target[i]? = some t →
      ∀ s ∈ batch, keyOf ks t = keyOf ks s →
      ∃ r : Row V, (merge_data ks upd target batch)[i]? = some r ∧
        (∀ c ∈ upd, r c = s c) ∧ (∀ c, c ∉ upd → r c = t c) ∧
        (∀ c ∈ ks, r c = t c)) ∧
    (∀ (i : Nat) (t : Row V), target[i]? = some t →
      (∀ s ∈ batch, keyOf ks t ≠ keyOf ks s) →
      (merge_data ks upd target batch)[i]? = some t) ∧
    (∀ s ∈ batch, (∀ t ∈ target, keyOf ks t ≠ keyOf ks s) →
      s ∈ merge_data ks upd target batch) := by
  refine ⟨?_, ?_, ?_⟩
  · intro i t ht s hs hkey
    refine ⟨mergeRow ks upd batch t,
      merge_data_getElem_left ks upd target batch i t ht, ?_⟩
    have hrow : mergeRow ks upd batch t = updateRow upd t s := by
      unfold mergeRow
      rw [find?_eq_some_of_key_match ks batch t s hd hs hkey]
    rw [hrow]
    refine ⟨?_, ?_, ?_⟩
    · intro c hc
      unfold updateRow
      simp [hc]
    · intro c hc
      unfold updateRow
      simp [hc]
    · intro c hc
      unfold updateRow
      by_cases hcu : c ∈ upd
      · simp only [hcu, if_pos]
        exact (List.map_eq_map_iff.mp hkey c hc).symm
      · simp [hcu]
  · intro i t ht hnone
    have hfind : batch.find? (fun x => matchesKey ks t x) = none := by
      rw [List.find?_eq_none]
      intro s hs
      unfold matchesKey
      simp only [decide_eq_true_eq]
      exact hnone s hs
    have hrow : mergeRow ks upd batch t = t := by
      unfold mergeRow; rw [hfind]
    rw [merge_data_getElem_left ks upd target batch i t ht, hrow]
  · intro s hs hnomatch
    unfold merge_data
    apply List.mem_append_right
    rw [List.mem_filter]
    refine ⟨hs, ?_⟩
    have hany : target.any (fun t => matchesKey ks t s) = false := by
      rw [List.any_eq_false]
      intro t ht
      unfold matchesKey
      simp only [decide_eq_true_eq]
      exact hnomatch t ht
    rw [hany]
    rfl

/-- Witness for `merge_data_correct`: one matched target row is updated on
CLOSE, keeps its keys, and an unmatched batch row is inserted. -/
theorem merge_data_correct_witness :
    (∃ r, (merge_data ["TICKER", "DATE"] ["CLOSE"]
        [sampleRow 1 10 100] [sampleRow 1 10 101, sampleRow 2 20 102])[0]? = some r ∧
      r ("CLOSE") = (101 : Int) ∧ r ("TICKER") = 1 ∧ r ("DATE") = 10) ∧
    sampleRow 2 20 102 ∈ merge_data ["TICKER", "DATE"] ["CLOSE"]
      [sampleRow 1 10 100] [sampleRow 1 10 101, sampleRow 2 20 102] := by
  have h := merge_data_correct ["TICKER", "DATE"] ["CLOSE"]
    [sampleRow 1 10 100] [sampleRow 1 10 101, sampleRow 2 20 102] (by decide)
  constructor
  · obtain ⟨r, hr, h1, _, h3⟩ := h.1 0 (sampleRow 1 10 100) rfl
      (sampleRow 1 10 101) (by simp) (by decide)
    refine ⟨r, hr, ?_, ?_, ?_⟩
    · exact (h1 ("CLOSE") (by simp)).trans (by decide)
    · exact (h3 ("TICKER") (by simp)).trans (by decide)
    · exact (h3 ("DATE") (by simp)).trans (by decide)
  · exact h.2.2 (sampleRow 2 20 102) (by simp) (by decide)

theorem merge_data_of_no_match {V : Type} [DecidableEq V] (ks upd : List Col)
    (target batch : List (Row V))
    (h : ∀ t ∈ target, ∀ s ∈ batch, keyOf ks t ≠ keyOf ks s) :
    merge_data ks upd target batch = target ++ batch := by
  unfold merge_data
  congr 1
  · have hfix : ∀ t ∈ target, mergeRow ks upd batch t = id t := by
      intro t ht
      have hfind : batch.find? (fun x => matchesKey ks t x) = none := by
        rw [List.find?_eq_none]
        intro s hs
        unfold matchesKey
        simp only [decide_eq_true_eq]
        exact h t ht s hs
      show mergeRow ks upd batch t = t
      unfold mergeRow
      rw [hfind]
    calc target.map (mergeRow ks upd batch)
        = target.map id := List.map_congr_left hfix
      _ = target := List.map_id _
  · rw [List.filter_eq_self]
    intro s hs
    have hany : target.any (fun t => matchesKey ks t s) = false := by
      rw [List.any_eq_false]
      intro t ht
      unfold matchesKey
      simp only [decide_eq_true_eq]
      exact h t ht s hs
    rw [hany]
    rfl

/-- C8 counterexample: a table whose single row matches the ticker but holds
a NULL ordering value.  `SELECT MAX(DATE) ... WHERE TICKER = 'AAPL'` yields
NULL, so the resolver returns none although a matching row exists. -/
theorem get_last_loaded_date_none_despite_rows :
    get_last_loaded_date
        [(⟨"AAPL", (none : Option Nat)⟩ : PersistedRow Nat)] ("AAPL") = none ∧
    ([(⟨"AAPL", (none : Option Nat)⟩ : PersistedRow Nat)].filter
        (fun r => decide (r.ticker = "AAPL"))).length = 1 := by
  exact ⟨rfl, rfl⟩

/-- C8 amended: the resolver returns the maximum of the non-null ordering
values among the rows matching the entity key, and returns none if and only
if no matching row carries a non-null ordering value — in particular none
when no matching rows exist at all. -/
theorem get_last_loaded_date_spec {V : Type} [LinearOrder V]
    (table : List (PersistedRow V)) (tk : String) :
    (get_last_loaded_date table tk = none ↔
      ∀ r ∈ table, r.ticker = tk → r.orderingValue = none) ∧
    (∀ v : V, get_last_loaded_date table tk = some v →
      (∃ r ∈ table, r.ticker = tk ∧ r.orderingValue = some v) ∧
      (∀ r ∈ table, r.ticker = tk → ∀ w : V, r.orderingValue = some w → w ≤ v)) := by
  haveI : Std.Antisymm ((· : V) ≤ ·) := ⟨fun h1 h2 => le_antisymm h1 h2⟩
  constructor
  · unfold get_last_loaded_date
    rw [List.max?_eq_none_iff, List.filterMap_eq_nil_iff]
    constructor
    · intro hall r hr htk
      exact hall r (List.mem_filter.mpr ⟨hr, decide_eq_true htk⟩)
    · intro hall r hr
      obtain ⟨hmem, hp⟩ := List.mem_filter.mp hr
      exact hall r hmem (of_decide_eq_true hp)
  · intro v hv
    unfold get_last_loaded_date at hv
    have hiff := (List.max?_eq_some_iff (fun a : V => le_refl a) max_choice
      (fun _ _ _ => max_le_iff)).mp hv
    obtain ⟨hmem, hub⟩ := hiff
    constructor
    · obtain ⟨r, hr, hval⟩ := List.mem_filterMap.mp hmem
      obtain ⟨hrt, hp⟩ := List.mem_filter.mp hr
      exact ⟨r, hrt, of_decide_eq_true hp, hval⟩
    · intro r hr htk w hw
      apply hub
      rw [List.mem_filterMap]
      exact ⟨r, List.mem_filter.mpr ⟨hr, decide_eq_true htk⟩, hw⟩

/-- Witness for `get_last_loaded_date_spec`: on a three-row table the
resolver returns 7, which is attained by a matching row and bounds every
matching row's ordering value. -/
theorem get_last_loaded_date_spec_witness :
    (∃ r ∈ [(⟨"AAPL", some 3⟩ : PersistedRow Nat), ⟨"AAPL", some 7⟩,
        ⟨"MSFT", some 9⟩], r.ticker = "AAPL" ∧ r.orderingValue = some 7) ∧
    (∀ r ∈ [(⟨"AAPL", some 3⟩ : PersistedRow Nat), ⟨"AAPL", some 7⟩,
        ⟨"MSFT", some 9⟩], r.ticker = "AAPL" →
      ∀ w : Nat, r.orderingValue = some w → w ≤ 7) :=
  (get_last_loaded_date_spec
    [(⟨"AAPL", some 3⟩ : PersistedRow Nat), ⟨"AAPL", some 7⟩, ⟨"MSFT", some 9⟩]
    ("AAPL")).2 7 (by decide)

end SnowflakeClient

namespace NewsLoader

theorem fetch_records_ids (uuids : List String) (articles : List Article)
    (h : uuids.length = articles.length) :
    (fetch_records uuids articles).map NewsRecord.article_id = uuids := by
  induction uuids generalizing articles with
  | nil => simp [fetch_records]
  | cons u us ih =>
    cases articles with
    | nil => simp at h
    | cons a as =>
      have hlen : us.length = as.length := by simpa using h
      simp [fetch_records] at ih ⊢
      exact ih as hlen

theorem keyOf_toRow (r : NewsRecord) :
    keyOf get_merge_keys (NewsRecord.toRow r) = [some r.article_id] := rfl

theorem fetch_records_mem_id (uuids : List String) (articles : List Article)
    (h : uuids.length = articles.length) (r : NewsRecord)
    (hr : r ∈ fetch_records uuids articles) : r.article_id ∈ uuids := by
  rw [← fetch_records_ids uuids articles h]
  exact List.mem_map_of_mem _ hr

/-- C10: news merge keys are fetch-fresh.  `fetch_data` assigns every article
the next freshly generated UUID, independent of all article fields, and
`ARTICLE_ID` is the sole merge key; hence two fetches of the same articles
under disjoint UUID supplies carry pairwise different merge keys, and
re-running fetch + upsert appends brand-new rows — the previously persisted
rows are left as they are and the row count doubles instead of staying
fixed. -/
theorem news_rerun_inserts_duplicates (articles : List Article)
    (u1 u2 : List String) (upd : List Col)
    (h1 : u1.length = articles.length) (h2 : u2.length = articles.length)
    (hdisj : ∀ x ∈ u1, x ∉ u2) :
    (fetch_records u1 articles).map NewsRecord.article_id = u1 ∧
    (fetch_records u2 articles).map NewsRecord.article_id = u2 ∧
    SnowflakeClient.merge_data get_merge_keys upd
        ((fetch_records u1 articles).map NewsRecord.toRow)
        ((fetch_records u2 articles).map NewsRecord.toRow) =
      (fetch_records u1 articles).map NewsRecord.toRow ++
        (fetch_records u2 articles).map NewsRecord.toRow ∧
    (SnowflakeClient.merge_data get_merge_keys upd
        ((fetch_records u1 articles).map NewsRecord.toRow)
        ((fetch_records u2 articles).map NewsRecord.toRow)).length =
      articles.length + articles.length := by
  have hkeys : ∀ t ∈ (fetch_records u1 articles).map NewsRecord.toRow,
      ∀ s ∈ (fetch_records u2 articles).map NewsRecord.toRow,
      keyOf get_merge_keys t ≠ keyOf get_merge_keys s := by
    intro t ht s hs
    obtain ⟨r1, hr1, hteq⟩ := List.mem_map.mp ht
    obtain ⟨r2, hr2, hseq⟩ := List.mem_map.mp hs
    subst hteq hseq
    rw [keyOf_toRow, keyOf_toRow]
    intro hcontra
    have hids : r1.article_id = r2.article_id := by
      simpa using hcontra
    have hin1 : r1.article_id ∈ u1 :=
      fetch_records_mem_id u1 articles h1 r1 hr1
    have hin2 : r1.article_id ∈ u2 := by
      rw [hids]
      exact fetch_records_mem_id u2 articles h2 r2 hr2
    exact hdisj r1.article_id hin1 hin2
  have happ := SnowflakeClient.merge_data_of_no_match get_merge_keys upd
    ((fetch_records u1 articles).map NewsRecord.toRow)
    ((fetch_records u2 articles).map NewsRecord.toRow) hkeys
  refine ⟨fetch_records_ids u1 articles h1, fetch_records_ids u2 articles h2,
    happ, ?_⟩
  rw [happ, List.length_append, List.length_map, List.length_map]
  unfold fetch_records
  rw [List.length_zipWith, List.length_zipWith, h1, h2, Nat.min_self]

/-- Witness for `news_rerun_inserts_duplicates`: one article fetched twice
under distinct UUIDs is inserted twice — the merged table has two rows. -/
theorem news_rerun_inserts_duplicates_witness :
    (SnowflakeClient.merge_data get_merge_keys ["TITLE"]
        ((fetch_records ["uuid-1"]
          [⟨some ("t"), none, none, none, none, some ("u"), some ("p")⟩]).map
          NewsRecord.toRow)
        ((fetch_records ["uuid-2"]
          [⟨some ("t"), none, none, none, none, some ("u"), some ("p")⟩]).map
          NewsRecord.toRow)).length = 1 + 1 :=
  (news_rerun_inserts_duplicates
    [⟨some ("t"), none, none, none, none, some ("u"), some ("p")⟩]
    ["uuid-1"] ["uuid-2"] ["TITLE"] (by decide) (by decide) (by decide)).2.2.2

end NewsLoader

namespace StockPriceLoader

theorem any_transform_data (ticker now : String) (df : List PriceRow)
    (p : PriceRow → Bool)
    (hp : ∀ r, p { r with ticker := ticker, ingested_at := now } = p r) :
    (transform_data ticker now df).any p = df.any p := by
  unfold transform_data
  rw [List.any_map]
  show df.any (fun r => p { r with ticker := ticker, ingested_at := now }) = df.any p
  rw [funext hp]

end StockPriceLoader

/-- Concrete two-row price batch sharing one (TICKER, DATE) merge-key tuple;
both rows satisfy every price-ordering check. -/
def dupPriceBatch : List PriceRow :=
  [⟨"2024-01-02", some 10, some 12, some 9, some 11, "", ""⟩,
   ⟨"2024-01-02", some 10, some 12, some 9, some 10, "", ""⟩]

/-- C3: Validator rejection with atomicity.  A price batch containing a row
with high < low fails validation inside the loader: `load` returns False (the
entity is reported as failed), the scored batch is never handed to
`_load_to_snowflake`, and consequently the target table is unchanged under
any upsert semantics. -/
theorem stock_validator_rejection (df : List PriceRow) (ticker now : String)
    (h : ∃ r ∈ df, optLt r.high r.low = true) :
    BaseDataLoader.load (StockPriceLoader.transform_data ticker now)
        StockPriceLoader.validate_data StockPriceLoader.calculate_quality_score
        (Except.ok df) = (false, none) ∧
    ∀ (T : Type) (upsert : T → List PriceRow → ℚ → T) (table : T),
      BaseDataLoader.load_effect upsert
        (BaseDataLoader.load (StockPriceLoader.transform_data ticker now)
          StockPriceLoader.validate_data StockPriceLoader.calculate_quality_score
          (Except.ok df)) table = table := by
  obtain ⟨r, hr, hlt⟩ := h
  have hne : df.isEmpty = false :=
    List.isEmpty_eq_false.mpr (List.ne_nil_of_mem hr)
  have hany : (StockPriceLoader.transform_data ticker now df).any
      (fun r => optLt r.high r.low) = true := by
    rw [StockPriceLoader.any_transform_data ticker now df
      (fun r => optLt r.high r.low) (fun r => rfl)]
    rw [List.any_eq_true]
    exact ⟨r, hr, hlt⟩
  have hvalid : ∃ msg, StockPriceLoader.validate_data
      (StockPriceLoader.transform_data ticker now df) = Except.error msg := by
    by_cases hc : ((StockPriceLoader.transform_data ticker now df).any
          (fun r => optLt r.open_ (some 0)) ||
        (StockPriceLoader.transform_data ticker now df).any
          (fun r => optLt r.high (some 0)) ||
        (StockPriceLoader.transform_data ticker now df).any
          (fun r => optLt r.low (some 0)) ||
        (StockPriceLoader.transform_data ticker now df).any
          (fun r => optLt r.close (some 0))) = true
    · exact ⟨_, by unfold StockPriceLoader.validate_data; rw [if_pos hc]⟩
    · exact ⟨_, by unfold StockPriceLoader.validate_data; rw [if_neg hc, if_pos hany]⟩
  obtain ⟨msg, hmsg⟩ := hvalid
  have hload : BaseDataLoader.load (StockPriceLoader.transform_data ticker now)
      StockPriceLoader.validate_data StockPriceLoader.calculate_quality_score
      (Except.ok df) = (false, none) := by
    unfold BaseDataLoader.load
    simp [hne, hmsg]
  refine ⟨hload, ?_⟩
  intro T upsert table
  rw [hload]
  rfl

/-- Witness for `stock_validator_rejection`: a one-row batch with
high = 3 < low = 4 makes the loader fail without touching the upsert step. -/
theorem stock_validator_rejection_witness :
    BaseDataLoader.load (StockPriceLoader.transform_data ("AAPL") ("ts"))
        StockPriceLoader.validate_data StockPriceLoader.calculate_quality_score
        (Except.ok [⟨"2024-01-02", some 5, some 3, some 4, some 5, "", ""⟩])
      = (false, none) :=
  (stock_validator_rejection
    [⟨"2024-01-02", some 5, some 3, some 4, some 5, "", ""⟩]
    ("AAPL") ("ts") (by decide)).1

/-- C4 counterexample: an empty fetch makes `BaseDataLoader.load` return
False — the loader reports failure for the entity instead of the successful
zero-row outcome the claim requires. -/
theorem empty_fetch_reports_failure :
    BaseDataLoader.load (StockPriceLoader.transform_data ("AAPL") ("ts"))
        StockPriceLoader.validate_data StockPriceLoader.calculate_quality_score
        (Except.ok ([] : List PriceRow)) = (false, none) ∧
    (BaseDataLoader.load (StockPriceLoader.transform_data ("AAPL") ("ts"))
        StockPriceLoader.validate_data StockPriceLoader.calculate_quality_score
        (Except.ok ([] : List PriceRow))).1 ≠ true := by
  exact ⟨rfl, by decide⟩

/-- C4 amended: an empty fetch does short-circuit before validation, scoring
and upsert — nothing is handed to `_load_to_snowflake`, for any transform,
validator and scorer — but the loader returns False, reporting failure
rather than a successful DONE with zero rows. -/
theorem empty_fetch_short_circuits {R : Type} (transform : List R → List R)
    (validate : List R → Except String Bool) (score : List R → ℚ) :
    BaseDataLoader.load transform validate score (Except.ok ([] : List R))
      = (false, none) := rfl

/-- C5 counterexample: a batch whose two rows share the (TICKER, DATE)
merge-key tuple passes validation unchanged and is handed to the upsert
engine — no duplicate-merge-key rejection happens anywhere in the
Validator/Loader path. -/
theorem duplicate_keys_reach_upsert :
    ¬ ((StockPriceLoader.transform_data ("AAPL") ("ts") dupPriceBatch).map
        StockPriceLoader.merge_key).Nodup ∧
    StockPriceLoader.validate_data
        (StockPriceLoader.transform_data ("AAPL") ("ts") dupPriceBatch)
      = Except.ok true ∧
    BaseDataLoader.load (StockPriceLoader.transform_data ("AAPL") ("ts"))
        StockPriceLoader.validate_data StockPriceLoader.calculate_quality_score
        (Except.ok dupPriceBatch)
      = (true, some (StockPriceLoader.transform_data ("AAPL") ("ts") dupPriceBatch,
          100)) := by
  refine ⟨by decide, rfl, by decide⟩

/-- C5 amended: the stock validator checks only non-negativity and OHLC
ordering and never inspects merge keys; every batch passing those per-row
checks is scored and handed to the upsert engine, duplicate merge-key tuples
included. -/
theorem validator_ignores_merge_keys (df : List PriceRow) (ticker now : String)
    (hne : df ≠ [])
    (h1 : ∀ r ∈ df, optLt r.open_ (some 0) = false)
    (h2 : ∀ r ∈ df, optLt r.high (some 0) = false)
    (h3 : ∀ r ∈ df, optLt r.low (some 0) = false)
    (h4 : ∀ r ∈ df, optLt r.close (some 0) = false)
    (h5 : ∀ r ∈ df, optLt r.high r.low = false)
    (h6 : ∀ r ∈ df, optLt r.open_ r.low = false)
    (h7 : ∀ r ∈ df, optGt r.open_ r.high = false)
    (h8 : ∀ r ∈ df, optLt r.close r.low = false)
    (h9 : ∀ r ∈ df, optGt r.close r.high = false) :
    BaseDataLoader.load (StockPriceLoader.transform_data ticker now)
        StockPriceLoader.validate_data StockPriceLoader.calculate_quality_score
        (Except.ok df)
      = (true, some (StockPriceLoader.transform_data ticker now df,
          StockPriceLoader.calculate_quality_score
            (StockPriceLoader.transform_data ticker now df))) := by
  have hne2 : df.isEmpty = false := List.isEmpty_eq_false.mpr hne
  have hfalse : ∀ (p : PriceRow → Bool), (∀ r ∈ df, p r = false) →
      (∀ r, p { r with ticker := ticker, ingested_at := now } = p r) →
      (StockPriceLoader.transform_data ticker now df).any p = false := by
    intro p hall hpres
    rw [StockPriceLoader.any_transform_data ticker now df p hpres]
    rw [List.any_eq_false]
    intro r hr
    simp [hall r hr]
  have hb1 := hfalse _ h1 (fun r => rfl)
  have hb2 := hfalse _ h2 (fun r => rfl)
  have hb3 := hfalse _ h3 (fun r => rfl)
  have hb4 := hfalse _ h4 (fun r => rfl)
  have hb5 := hfalse _ h5 (fun r => rfl)
  have hb6 := hfalse _ h6 (fun r => rfl)
  have hb7 := hfalse _ h7 (fun r => rfl)
  have hb8 := hfalse _ h8 (fun r => rfl)
  have hb9 := hfalse _ h9 (fun r => rfl)
  have hval : StockPriceLoader.validate_data
      (StockPriceLoader.transform_data ticker now df) = Except.ok true := by
    unfold StockPriceLoader.validate_data
    rw [hb1, hb2, hb3, hb4, hb5, hb6, hb7, hb8, hb9]
    rfl
  unfold BaseDataLoader.load
  simp [hne2, hval]

/-- Witness for `validator_ignores_merge_keys`: the duplicate-key batch
reaches the upsert engine with a perfect quality score. -/
theorem validator_ignores_merge_keys_witness :
    BaseDataLoader.load (StockPriceLoader.transform_data ("MSFT") ("ts"))
        StockPriceLoader.validate_data StockPriceLoader.calculate_quality_score
        (Except.ok dupPriceBatch)
      = (true, some (StockPriceLoader.transform_data ("MSFT") ("ts") dupPriceBatch,
          StockPriceLoader.calculate_quality_score
            (StockPriceLoader.transform_data ("MSFT") ("ts") dupPriceBatch))) :=
  validator_ignores_merge_keys dupPriceBatch ("MSFT") ("ts") (by decide)
    (by decide) (by decide) (by decide) (by decide) (by decide) (by decide)
    (by decide) (by decide) (by decide)

/-- C6: Quality score boundaries.  Every price batch scores within [0, 100]
(the four deductions are fixed and independent, so the score never drops
below 100 − 70 = 30, in particular never below 0), and a nonempty batch
whose four OHLC fields are all missing — which also makes every ordering
comparison false, so no other defect can fire — scores exactly
100 − 30 = 70. -/
theorem stock_quality_score_bounds :
    (∀ df : List PriceRow, 0 ≤ StockPriceLoader.calculate_quality_score df ∧
      StockPriceLoader.calculate_quality_score df ≤ 100) ∧
    (∀ df : List PriceRow, df ≠ [] →
      (∀ r ∈ df, r.open_ = none ∧ r.high = none ∧ r.low = none ∧ r.close = none) →
      StockPriceLoader.calculate_quality_score df = 70) := by
  constructor
  · intro df
    unfold StockPriceLoader.calculate_quality_score
    split_ifs <;> norm_num
  · intro df hne hnull
    have h30 : df.any (fun r =>
        r.open_.isNone || r.high.isNone || r.low.isNone || r.close.isNone) = true := by
      rw [List.any_eq_true]
      obtain ⟨r, hr⟩ := List.exists_mem_of_ne_nil df hne
      obtain ⟨e1, e2, e3, e4⟩ := hnull r hr
      exact ⟨r, hr, by simp [e1]⟩
    have hcmp : ∀ (f g : PriceRow → Option ℚ),
        (∀ r ∈ df, f r = none) → df.any (fun r => optLt (f r) (g r)) = false := by
      intro f g hf
      rw [List.any_eq_false]
      intro r hr
      rw [hf r hr]
      simp [optLt]
    have e1 : ∀ r ∈ df, r.open_ = none := fun r hr => (hnull r hr).1
    have e2 : ∀ r ∈ df, r.high = none := fun r hr => (hnull r hr).2.1
    have e3 : ∀ r ∈ df, r.low = none := fun r hr => (hnull r hr).2.2.1
    have e4 : ∀ r ∈ df, r.close = none := fun r hr => (hnull r hr).2.2.2
    have hb5 : df.any (fun r => optLt r.high r.low) = false := hcmp _ _ e2
    have hb6 : df.any (fun r => optLt r.open_ r.low) = false := hcmp _ _ e1
    have hb7 : df.any (fun r => optGt r.open_ r.high) = false := by
      rw [List.any_eq_false]
      intro r hr
      rw [show optGt r.open_ r.high = optLt r.high r.open_ from rfl, e2 r hr]
      simp [optLt]
    have hb8 : df.any (fun r => optLt r.close r.low) = false := hcmp _ _ e4
    have hb9 : df.any (fun r => optGt r.close r.high) = false := by
      rw [List.any_eq_false]
      intro r hr
      rw [show optGt r.close r.high = optLt r.high r.close from rfl, e2 r hr]
      simp [optLt]
    unfold StockPriceLoader.calculate_quality_score
    rw [hb5, hb6, hb7, hb8, hb9, h30]
    norm_num

/-- Witness for `stock_quality_score_bounds`: a one-row batch with all four
OHLC fields missing scores exactly 70. -/
theorem stock_quality_score_bounds_witness :
    StockPriceLoader.calculate_quality_score
      [⟨"2024-01-02", none, none, none, none, "", ""⟩] = 70 :=
  stock_quality_score_bounds.2
    [⟨"2024-01-02", none, none, none, none, "", ""⟩] (by decide) (by decide)

/-- C7 counterexample: on the empty batch the stock quality scorer returns
100.0 — no comparison fires and no cell is flagged missing on an empty
frame — not the 0 the claim requires for empty/degenerate input. -/
theorem stock_score_empty_is_100 :
    StockPriceLoader.calculate_quality_score ([] : List PriceRow) = 100 ∧
    (100 : ℚ) ≠ 0 := by
  exact ⟨rfl, by norm_num⟩

/-- C7 amended: quality scoring is total — both scorers return a value on
every batch, never below 0 — and the SEC scorer returns 0 on the empty
batch, but the stock scorer returns 100 on the empty batch rather than 0. -/
theorem quality_score_totality :
    SECFilingLoader.calculate_quality_score ([] : List FilingRow) = 0 ∧
    StockPriceLoader.calculate_quality_score ([] : List PriceRow) = 100 ∧
    (∀ df : List FilingRow, 0 ≤ SECFilingLoader.calculate_quality_score df) ∧
    (∀ df : List PriceRow, 0 ≤ StockPriceLoader.calculate_quality_score df ∧
      StockPriceLoader.calculate_quality_score df ≤ 100) := by
  refine ⟨rfl, rfl, ?_, ?_⟩
  · intro df
    unfold SECFilingLoader.calculate_quality_score
    split
    · norm_num
    · exact le_max_right _ _
  · intro df
    unfold StockPriceLoader.calculate_quality_score
    split_ifs <;> norm_num

theorem foldl_categorize (loads : List (String → Bool)) (tickers : List String) :
    ∀ init : PipelineResults,
    tickers.foldl (fun res t => categorize res t (loads.map (fun f => f t))) init =
      ⟨init.success ++ tickers.filter (fun t => (loads.map (fun f => f t)).all id),
       init.mixed ++ tickers.filter (fun t =>
         !((loads.map (fun f => f t)).all id) && (loads.map (fun f => f t)).any id),
       init.failed ++ tickers.filter (fun t =>
         !((loads.map (fun f => f t)).all id) && !((loads.map (fun f => f t)).any id))⟩ := by
  induction tickers with
  | nil =>
    intro init
    simp
  | cons t ts ih =>
    intro init
    rw [List.foldl_cons, ih]
    cases hall : (loads.map (fun f => f t)).all id with
    | true => simp [categorize, List.filter_cons, hall]
    | false =>
      cases hany : (loads.map (fun f => f t)).any id with
      | true => simp [categorize, List.filter_cons, hall, hany]
      | false => simp [categorize, List.filter_cons, hall, hany]

/-- C9: Failure isolation.  Every configured entity lands in exactly one of
the three summary buckets, and its bucket is determined solely by its own
per-source load outcomes — success when every enabled source's `load`
returned True, partial success when some but not all did, failed when every
source's `load` returned False (a loader whose fetch raises returns False
through the loader-boundary catch, so one entity's raising loader never
affects any sibling entity's bucket). -/
theorem failure_isolation (tickers : List String) (loads : List (String → Bool))
    (hl : loads ≠ []) :
    (∀ t ∈ tickers,
      (t ∈ (run_pipeline tickers loads).success ∧
        t ∉ (run_pipeline tickers loads).mixed ∧
        t ∉ (run_pipeline tickers loads).failed) ∨
      (t ∉ (run_pipeline tickers loads).success ∧
        t ∈ (run_pipeline tickers loads).mixed ∧
        t ∉ (run_pipeline tickers loads).failed) ∨
      (t ∉ (run_pipeline tickers loads).success ∧
        t ∉ (run_pipeline tickers loads).mixed ∧
        t ∈ (run_pipeline tickers loads).failed)) ∧
    (∀ t, t ∈ (run_pipeline tickers loads).success ↔
      t ∈ tickers ∧ ∀ f ∈ loads, f t = true) ∧
    (∀ t, t ∈ (run_pipeline tickers loads).mixed ↔
      t ∈ tickers ∧ (∃ f ∈ loads, f t = true) ∧ (∃ f ∈ loads, f t = false)) ∧
    (∀ t, t ∈ (run_pipeline tickers loads).failed ↔
      t ∈ tickers ∧ ∀ f ∈ loads, f t = false) := by
  have hboolF : ∀ b : Bool, ¬ (b = true) → b = false := by
    intro b h
    cases b
    · rfl
    · exact absurd rfl h
  have hrw := foldl_categorize loads tickers ⟨[], [], []⟩
  have hS : (run_pipeline tickers loads).success =
      tickers.filter (fun t => (loads.map (fun f => f t)).all id) := by
    unfold run_pipeline
    rw [hrw]
    simp
  have hM : (run_pipeline tickers loads).mixed =
      tickers.filter (fun t =>
        !((loads.map (fun f => f t)).all id) && (loads.map (fun f => f t)).any id) := by
    unfold run_pipeline
    rw [hrw]
    simp
  have hF : (run_pipeline tickers loads).failed =
      tickers.filter (fun t =>
        !((loads.map (fun f => f t)).all id) && !((loads.map (fun f => f t)).any id)) := by
    unfold run_pipeline
    rw [hrw]
    simp
  refine ⟨?_, ?_, ?_, ?_⟩
  · intro t ht
    by_cases hall : (loads.map (fun f => f t)).all id = true
    · left
      refine ⟨?_, ?_, ?_⟩
      · rw [hS, List.mem_filter]
        exact ⟨ht, hall⟩
      · rw [hM, List.mem_filter]
        rintro ⟨-, hp⟩
        rw [hall] at hp
        simp at hp
      · rw [hF, List.mem_filter]
        rintro ⟨-, hp⟩
        rw [hall] at hp
        simp at hp
    · have hall2 := hboolF _ hall
      by_cases hany : (loads.map (fun f => f t)).any id = true
      · right; left
        refine ⟨?_, ?_, ?_⟩
        · rw [hS, List.mem_filter]
          rintro ⟨-, hp⟩
          exact hall hp
        · rw [hM, List.mem_filter]
          refine ⟨ht, ?_⟩
          rw [hall2, hany]
          rfl
        · rw [hF, List.mem_filter]
          rintro ⟨-, hp⟩
          rw [hall2, hany] at hp
          simp at hp
      · have hany2 := hboolF _ hany
        right; right
        refine ⟨?_, ?_, ?_⟩
        · rw [hS, List.mem_filter]
          rintro ⟨-, hp⟩
          exact hall hp
        · rw [hM, List.mem_filter]
          rintro ⟨-, hp⟩
          rw [hall2, hany2] at hp
          simp at hp
        · rw [hF, List.mem_filter]
          refine ⟨ht, ?_⟩
          rw [hall2, hany2]
          rfl
  · intro t
    rw [hS, List.mem_filter]
    constructor
    · rintro ⟨ht, hp⟩
      refine ⟨ht, ?_⟩
      intro f hf
      have hx := List.all_eq_true.mp hp (f t) (List.mem_map_of_mem _ hf)
      simpa using hx
    · rintro ⟨ht, hp⟩
      refine ⟨ht, ?_⟩
      rw [List.all_eq_true]
      intro x hx
      obtain ⟨f, hf, rfl⟩ := List.mem_map.mp hx
      simpa using hp f hf
  · intro t
    rw [hM, List.mem_filter]
    constructor
    · rintro ⟨ht, hp⟩
      rw [Bool.and_eq_true, Bool.not_eq_true'] at hp
      obtain ⟨hna, ha⟩ := hp
      refine ⟨ht, ?_, ?_⟩
      · rw [List.any_eq_true] at ha
        obtain ⟨x, hx, hxt⟩ := ha
        obtain ⟨f, hf, rfl⟩ := List.mem_map.mp hx
        exact ⟨f, hf, by simpa using hxt⟩
      · rw [List.all_eq_false] at hna
        obtain ⟨x, hx, hxf⟩ := hna
        obtain ⟨f, hf, rfl⟩ := List.mem_map.mp hx
        exact ⟨f, hf, hboolF _ (by simpa using hxf)⟩
    · rintro ⟨ht, ⟨ft, hft, hftt⟩, ⟨ff, hff, hfff⟩⟩
      refine ⟨ht, ?_⟩
      rw [Bool.and_eq_true, Bool.not_eq_true']
      constructor
      · rw [List.all_eq_false]
        exact ⟨ff t, List.mem_map_of_mem _ hff, by simp [hfff]⟩
      · rw [List.any_eq_true]
        exact ⟨ft t, List.mem_map_of_mem _ hft, by simp [hftt]⟩
  · intro t
    rw [hF, List.mem_filter]
    constructor
    · rintro ⟨ht, hp⟩
      rw [Bool.and_eq_true, Bool.not_eq_true', Bool.not_eq_true'] at hp
      obtain ⟨-, hanyf⟩ := hp
      refine ⟨ht, ?_⟩
      intro f hf
      rw [List.any_eq_false] at hanyf
      have hx := hanyf (f t) (List.mem_map_of_mem _ hf)
      exact hboolF _ (by simpa using hx)
    · rintro ⟨ht, hp⟩
      refine ⟨ht, ?_⟩
      rw [Bool.and_eq_true, Bool.not_eq_true', Bool.not_eq_true']
      constructor
      · obtain ⟨f0, hf0⟩ := List.exists_mem_of_ne_nil loads hl
        rw [List.all_eq_false]
        exact ⟨f0 t, List.mem_map_of_mem _ hf0, by simp [hp f0 hf0]⟩
      · rw [List.any_eq_false]
        intro x hx
        obtain ⟨f, hf, rfl⟩ := List.mem_map.mp hx
        simp [hp f hf]

/-- Per-ticker load outcome used in the witness for failure isolation: the
underlying fetch raises (a connection error) exactly for ticker B and
returns one valid price bar otherwise; the loader boundary converts the
raise into a False return. -/
def witnessLoad (t : String) : Bool :=
  (BaseDataLoader.load (StockPriceLoader.transform_data t ("ts"))
    StockPriceLoader.validate_data StockPriceLoader.calculate_quality_score
    (if t = "B" then Except.error ("ConnectionError")
     else Except.ok [⟨"2024-01-02", some 10, some 12, some 9, some 11, "", ""⟩])).1

/-- Witness for `failure_isolation`: three entities, one source whose fetch
raises on the second entity only — entities A and C end in the success
bucket, B ends in the failed bucket. -/
theorem failure_isolation_witness :
    ("A" ∈ (run_pipeline ["A", "B", "C"] [witnessLoad]).success) ∧
    ("B" ∈ (run_pipeline ["A", "B", "C"] [witnessLoad]).failed) ∧
    ("C" ∈ (run_pipeline ["A", "B", "C"] [witnessLoad]).success) := by
  have h := failure_isolation ["A", "B", "C"] [witnessLoad] (List.cons_ne_nil _ _)
  refine ⟨?_, ?_, ?_⟩
  · refine (h.2.1 ("A")).mpr ⟨by simp, ?_⟩
    intro f hf
    rw [List.mem_singleton] at hf
    subst hf
    decide
  · refine (h.2.2.2 ("B")).mpr ⟨by simp, ?_⟩
    intro f hf
    rw [List.mem_singleton] at hf
    subst hf
    decide
  · refine (h.2.1 ("C")).mpr ⟨by simp, ?_⟩
    intro f hf
    rw [List.mem_singleton] at hf
    subst hf
    decide

end FinSage
